import Mathlib

/-!
Verification of the Aegis adaptive risk-weight engine
(src/aegis-backend/src/services): the composite scoring service
(risk_scoring_service.py), the ML training / weight-version lifecycle
service (ml_training_service.py) and the contract term lexicon analyzer
(contract_risk_matrix.py), shallowly embedded in Lean 4.

Modelling conventions:
- Python floats are modelled as rationals (exact arithmetic).
- Python dicts of floats are modelled as association lists with
  first-match lookup (Dict below); dict.get(k, d) becomes dget.
- Python round(x, 2) is modelled as decimal rounding half-to-even.
- SQLAlchemy session state is passed explicitly; an operation that
  raises before committing returns its error together with the
  unchanged state.
-/

namespace Aegis

/-- Association-list model of a Python dict from str to float. -/
abbrev Dict : Type := List (String × ℚ)

/-- Model of dict.get(k, dflt): first binding of the key wins. -/
def dget (d : Dict) (k : String) (dflt : ℚ) : ℚ :=
  match d with
  | [] => dflt
  | (k₁, v) :: rest => if k₁ = k then v else dget rest k dflt

/-- Model of the `key in dict` test. -/
def hasKey (d : Dict) (k : String) : Bool :=
  match d with
  | [] => false
  | (k₁, _) :: rest => k₁ = k || hasKey rest k

/-- Keys of a dict, in order. -/
def keysOf (d : Dict) : List String := d.map (fun p => p.1)

/-- Values of a dict, in order. -/
def valuesOf (d : Dict) : List ℚ := d.map (fun p => p.2)

/-- Rounding half to even of a rational to an integer, the tie-breaking
rule used by Python's built-in round. -/
def roundHalfEven (q : ℚ) : ℤ :=
  if q - ⌊q⌋ < 1/2 then ⌊q⌋
  else if 1/2 < q - ⌊q⌋ then ⌊q⌋ + 1
  else if ⌊q⌋ % 2 = 0 then ⌊q⌋ else ⌊q⌋ + 1

/-- Model of Python round(x, 2). -/
def round2 (q : ℚ) : ℚ := (roundHalfEven (q * 100) : ℚ) / 100

/-- RiskScoringService.RISK_CATEGORIES and
MLTrainingService.RISK_CATEGORIES (identical constants in the source). -/
def RISK_CATEGORIES : List String :=
  ["financial", "legal", "esg", "geopolitical",
   "operational", "pricing", "social", "performance"]

/-- RiskScoringService.compute_composite_score
(risk_scoring_service.py lines 63-87): for each category, look up
`<category>_score` in category_scores (default 0.0) and `category` in
weights (default 0.0), accumulate score * weight, round to 2 decimals. -/
def compute_composite_score (category_scores : Dict) (weights : Dict) : ℚ :=
  round2 (RISK_CATEGORIES.foldl
    (fun acc category =>
      acc + dget category_scores (category ++ "_score") 0 * dget weights category 0)
    0)

/-- Clamping of a score to [0,100]. This definition follows the SPEC's
words ("defensively clamped to [0,100] before use"); no such clamp exists
in the source, and the clamped scoring variant below exists only to be
compared against the source's compute_composite_score. -/
def clamp0100 (x : ℚ) : ℚ := max 0 (min 100 x)

/-- Spec-side variant of compute_composite_score in which every category
score is clamped to [0,100] before weighting, as the spec claims. -/
def compute_composite_score_clamped (category_scores : Dict) (weights : Dict) : ℚ :=
  round2 (RISK_CATEGORIES.foldl
    (fun acc category =>
      acc + clamp0100 (dget category_scores (category ++ "_score") 0) * dget weights category 0)
    0)

/-- Row of the risk_matrix_versions table (db/models.py) as used by
MLTrainingService and RiskScoringService: the eight per-category weight
columns plus the two lifecycle flags. Provenance columns not read by any
claim are omitted. -/
structure RiskMatrixVersion where
  id : ℕ
  version : String
  financial_weight : ℚ
  legal_weight : ℚ
  esg_weight : ℚ
  geopolitical_weight : ℚ
  operational_weight : ℚ
  pricing_weight : ℚ
  social_weight : ℚ
  performance_weight : ℚ
  is_active : Bool
  is_approved : Bool
deriving DecidableEq

/-- State of the risk_matrix_versions table, in insertion order. -/
abbrev Ledger : Type := List RiskMatrixVersion

/-- Error taxonomy of the training / lifecycle service. The source raises
ValueError with distinguishing messages; the spec names these classes. -/
inductive MLError where
  | NotFoundError
  | NotApprovedError
  | InsufficientDataError
  | UnsupportedModelTypeError
deriving DecidableEq

/-- Model of query(RiskMatrixVersion).filter(id == vid).first(). -/
def findVersion (l : Ledger) (vid : ℕ) : Option RiskMatrixVersion :=
  l.find? (fun v => v.id == vid)

/-- Apply an update to the first row matching the id (the row the ORM
query returned), leaving every other row unchanged. -/
def updateFirst (l : Ledger) (vid : ℕ) (f : RiskMatrixVersion → RiskMatrixVersion) : Ledger :=
  match l with
  | [] => []
  | v :: rest => if v.id = vid then f v :: rest else v :: updateFirst rest vid f

/-- Number of rows whose is_active flag is set. -/
def activeCount (l : Ledger) : ℕ := (l.filter (fun v => v.is_active)).length

/-- Result dictionary of MLTrainingService.train_model, restricted to the
fields later read by create_risk_matrix_version and the claims. -/
structure TrainingResults where
  model_type : String
  n_samples : ℕ
  feature_importance : Dict
deriving DecidableEq

/-- MLTrainingService.create_risk_matrix_version (ml_training_service.py
lines 298-358): builds a new row from training_results["feature_importance"]
(each weight via weights.get(cat, 0.0)), with is_active=False and
is_approved=auto_approve, and appends it to the table. Returns the created
row together with the new table state. -/
def create_risk_matrix_version (tr : TrainingResults) (auto_approve : Bool)
    (new_id : ℕ) (l : Ledger) : RiskMatrixVersion × Ledger :=
  let weights := tr.feature_importance
  let new_version : RiskMatrixVersion :=
    { id := new_id
      version := "v_ml_" ++ tr.model_type
      financial_weight := dget weights "financial" 0
      legal_weight := dget weights "legal" 0
      esg_weight := dget weights "esg" 0
      geopolitical_weight := dget weights "geopolitical" 0
      operational_weight := dget weights "operational" 0
      pricing_weight := dget weights "pricing" 0
      social_weight := dget weights "social" 0
      performance_weight := dget weights "performance" 0
      is_active := false
      is_approved := auto_approve }
  (new_version, l ++ [new_version])

/-- MLTrainingService.approve_version (lines 360-390): NotFoundError on an
unknown id; warning no-op if already approved; otherwise sets is_approved
on that row. On error the table is returned unchanged. -/
def approve_version (vid : ℕ) (l : Ledger) :
    Except MLError RiskMatrixVersion × Ledger :=
  match findVersion l vid with
  | none => (.error .NotFoundError, l)
  | some v =>
    if v.is_approved then (.ok v, l)
    else
      (.ok { v with is_approved := true },
       updateFirst l vid (fun u => { u with is_approved := true }))

/-- Bulk update query(RiskMatrixVersion).update(is_active = False). -/
def deactivate_all (l : Ledger) : Ledger :=
  l.map (fun u => { u with is_active := false })

/-- MLTrainingService.activate_version (lines 392-428): NotFoundError on an
unknown id; raises before any write when the version is not approved
(NotApprovedError per the spec's taxonomy); otherwise deactivates every
row and then sets is_active on the fetched row. On error the table is
returned unchanged, matching the raise happening before any update. -/
def activate_version (vid : ℕ) (l : Ledger) :
    Except MLError RiskMatrixVersion × Ledger :=
  match findVersion l vid with
  | none => (.error .NotFoundError, l)
  | some v =>
    if v.is_approved = false then (.error .NotApprovedError, l)
    else
      (.ok { v with is_active := true },
       updateFirst (deactivate_all l) vid (fun u => { u with is_active := true }))

/-- MLTrainingService.rollback_to_version (lines 436-447): delegates to
activate_version. -/
def rollback_to_version (vid : ℕ) (l : Ledger) :
    Except MLError RiskMatrixVersion × Ledger :=
  activate_version vid l

/-- Model families accepted by train_model (lines 181-201). -/
def VALID_MODEL_TYPES : List String :=
  ["logistic_regression", "random_forest", "gradient_boosting"]

/-- Weight post-processing of train_model (lines 230-256): divide the raw
importance vector by its sum, zip with the category names, drop entries
below the threshold, renormalize the survivors by their sum, then add the
dropped categories back with weight 0. In the all-dropped case the final
dict is exactly the eight zeros, matching Python (the renormalizing dict
comprehension iterates over an empty dict, so no division runs). -/
def normalize_importances (raw : List ℚ) (threshold : ℚ) : Dict :=
  let total := raw.sum
  let normalized := raw.map (fun x => x / total)
  let importance_dict : Dict := RISK_CATEGORIES.zip normalized
  let filtered := importance_dict.filter (fun p => decide (threshold ≤ p.2))
  let total_filtered := (filtered.map (fun p => p.2)).sum
  let final := filtered.map (fun p => (p.1, p.2 / total_filtered))
  final ++ (RISK_CATEGORIES.filter (fun c => ! hasKey final c)).map (fun c => (c, (0:ℚ)))

/-- Survivors of the importance filter: the normalized entries at or above
the threshold (feature_importance_filtered in the source). -/
def surviving (raw : List ℚ) (threshold : ℚ) : Dict :=
  (RISK_CATEGORIES.zip (raw.map (fun x => x / raw.sum))).filter
    (fun p => decide (threshold ≤ p.2))

/-- MLTrainingService.train_model (lines 140-296), shallowly embedded: the
sklearn fit is abstracted by its output, the raw per-category feature
importance vector (absolute coefficients or native importances, hence
non-negative). The guard order follows the source: the minimum-sample
check (line 163) precedes model-family dispatch (line 181). On success the
stored feature_importance is the filtered, renormalized weight dict. -/
def train_model (model_type : String) (raw_importance : List ℚ) (n_rows : ℕ)
    (min_samples : ℕ) (threshold : ℚ) : Except MLError TrainingResults :=
  if n_rows < min_samples then .error .InsufficientDataError
  else if model_type ∈ VALID_MODEL_TYPES then
    .ok { model_type := model_type
          n_samples := n_rows
          feature_importance := normalize_importances raw_importance threshold }
  else .error .UnsupportedModelTypeError

/-- Training endpoint composition (api/ml_models.py lines 203-206):
train_model followed by create_risk_matrix_version; when training raises,
no version is created and the table is unchanged. -/
def train_and_create_version (model_type : String) (raw_importance : List ℚ)
    (n_rows : ℕ) (min_samples : ℕ) (threshold : ℚ) (auto_approve : Bool)
    (new_id : ℕ) (l : Ledger) : Except MLError RiskMatrixVersion × Ledger :=
  match train_model model_type raw_importance n_rows min_samples threshold with
  | .error e => (.error e, l)
  | .ok tr =>
    let r := create_risk_matrix_version tr auto_approve new_id l
    (.ok r.1, r.2)

/-- Sum of the eight stored per-category weights of a version row. -/
def sumWeights (v : RiskMatrixVersion) : ℚ :=
  v.financial_weight + v.legal_weight + v.esg_weight + v.geopolitical_weight +
    v.operational_weight + v.pricing_weight + v.social_weight + v.performance_weight

/-- Alert severities used by the scoring service. -/
inductive AlertSeverity where
  | CRITICAL
  | WARNING
deriving DecidableEq

/-- Row of the risk_assessments table as written by create_risk_assessment,
restricted to the fields the claims read. -/
structure Assessment where
  supplier_id : ℕ
  financial_score : ℚ
  legal_score : ℚ
  esg_score : ℚ
  geopolitical_score : ℚ
  operational_score : ℚ
  pricing_score : ℚ
  social_score : ℚ
  performance_score : ℚ
  composite_score : ℚ
  recommendation : String
deriving DecidableEq

/-- Row of the alerts table, restricted to the fields the claims read. -/
structure Alert where
  supplier_id : ℕ
  severity : AlertSeverity
deriving DecidableEq

/-- Failure of the database session while committing (modelled fault). -/
inductive DBError where
  | CommitFailed
deriving DecidableEq

/-- State visible to RiskScoringService: the version table, the supplier
ids present, the committed assessments and alerts, plus a fault flag
injecting a db.commit failure inside _create_risk_alert (the session is an
external collaborator whose commit can raise; the source wraps it in no
try/except). -/
structure ScoringState where
  ledger : Ledger
  suppliers : List ℕ
  assessments : List Assessment
  alerts : List Alert
  alert_commit_fails : Bool
deriving DecidableEq

/-- RiskScoringService.get_active_weights (lines 33-61): weights of the
first active version, or equal weights 1/len(RISK_CATEGORIES) when none. -/
def get_active_weights (l : Ledger) : Dict :=
  match l.find? (fun v => v.is_active) with
  | none => RISK_CATEGORIES.map (fun c => (c, 1 / (RISK_CATEGORIES.length : ℚ)))
  | some v =>
    [("financial", v.financial_weight),
     ("legal", v.legal_weight),
     ("esg", v.esg_weight),
     ("geopolitical", v.geopolitical_weight),
     ("operational", v.operational_weight),
     ("pricing", v.pricing_weight),
     ("social", v.social_weight),
     ("performance", v.performance_weight)]

/-- RiskScoringService._create_risk_alert (lines 169-195): silently returns
when the supplier is unknown; otherwise inserts the alert and commits, and
a commit failure raises out of the function with nothing persisted. -/
def create_risk_alert (st : ScoringState) (a : Assessment) (sev : AlertSeverity) :
    ScoringState × Except DBError Unit :=
  match st.suppliers.find? (fun s => s == a.supplier_id) with
  | none => (st, .ok ())
  | some sid =>
    if st.alert_commit_fails then (st, .error .CommitFailed)
    else
      ({ st with alerts := st.alerts ++ [{ supplier_id := sid, severity := sev }] },
       .ok ())

/-- RiskScoringService.create_risk_assessment (lines 89-167): computes the
composite from the active weights, fills the recommendation from the fixed
thresholds when none is given, commits the assessment, then emits a
critical alert at composite >= 80 or a warning at >= 60. The alert call is
not guarded, so an alert failure propagates to the caller after the
assessment commit. -/
def create_risk_assessment (supplier_id : ℕ) (category_scores : Dict)
    (recommendation_in : Option String) (st : ScoringState) :
    ScoringState × Except DBError Assessment :=
  let weights := get_active_weights st.ledger
  let composite_score := compute_composite_score category_scores weights
  let recommendation :=
    match recommendation_in with
    | some r => r
    | none =>
      if composite_score < 40 then "Proceed"
      else if composite_score < 70 then "Negotiate"
      else "Replace"
  let assessment : Assessment :=
    { supplier_id := supplier_id
      financial_score := dget category_scores "financial_score" 0
      legal_score := dget category_scores "legal_score" 0
      esg_score := dget category_scores "esg_score" 0
      geopolitical_score := dget category_scores "geopolitical_score" 0
      operational_score := dget category_scores "operational_score" 0
      pricing_score := dget category_scores "pricing_score" 0
      social_score := dget category_scores "social_score" 0
      performance_score := dget category_scores "performance_score" 0
      composite_score := composite_score
      recommendation := recommendation }
  let st₁ := { st with assessments := st.assessments ++ [assessment] }
  if 80 ≤ composite_score then
    let r := create_risk_alert st₁ assessment .CRITICAL
    (r.1, match r.2 with | .ok _ => .ok assessment | .error e => .error e)
  else if 60 ≤ composite_score then
    let r := create_risk_alert st₁ assessment .WARNING
    (r.1, match r.2 with | .ok _ => .ok assessment | .error e => .error e)
  else (st₁, .ok assessment)

/-- Word characters of the regex \ b class, restricted to ASCII (the
lexicon keywords are ASCII; Python matches Unicode word characters too,
which this embedding idealizes away). -/
def isWordChar (c : Char) : Bool := c.isAlphanum || c == '_'

/-- Whether an optional character (none at a string edge) is a word
character; regex treats the string edge as a non-word position. -/
def optIsWord (c : Option Char) : Bool :=
  match c with
  | none => false
  | some c₁ => isWordChar c₁

/-- Whether the escaped pattern \ b kw \ b matches exactly at the current
position: kw occurs here and both positions around it are word
boundaries (word-ness differs across the position). -/
def wbMatchHere (kw : List Char) (prev : Option Char) (rest : List Char) : Bool :=
  match kw with
  | [] => false
  | k :: _ =>
    List.isPrefixOf kw rest &&
    (optIsWord prev != isWordChar k) &&
    (isWordChar (kw.getLastD k) != optIsWord (rest.drop kw.length).head?)

/-- Whether \ b kw \ b matches at the current or any later position. -/
def wbSearch (kw : List Char) (prev : Option Char) (rest : List Char) : Bool :=
  wbMatchHere kw prev rest ||
    (match rest with
     | [] => false
     | c :: rs => wbSearch kw (some c) rs)

/-- Model of re.search(r"\ b" + re.escape(keyword.lower()) + r"\ b",
text.lower()) from analyze_contract_text (lines 335-339); lowering is
applied per character (ASCII, as in the source's lexicon). -/
def keywordMatchesIn (text : String) (kw : String) : Bool :=
  wbSearch (kw.data.map Char.toLower) none (text.data.map Char.toLower)

/-- Entry of the ContractRiskMatrix.TERMS lexicon: name, category, the two
perspective risk ratings and the matchable keywords. The description and
rationale strings are not read by any computation and are omitted. -/
structure ContractTerm where
  term : String
  category : String
  risk_seller : ℕ
  risk_buyer : ℕ
  keywords : List String

/-- ContractRiskMatrix.TERMS (contract_risk_matrix.py lines 32-314). -/
def TERMS : List ContractTerm :=
  [{ term := "Payment Terms & Invoicing", category := "Financial",
     risk_seller := 6, risk_buyer := 8,
     keywords := ["invoice", "payment", "due", "net 30", "net 60", "payment terms", "billing"] },
   { term := "Late Payment & Remedies", category := "Financial",
     risk_seller := 5, risk_buyer := 7,
     keywords := ["late fee", "interest", "overdue", "default on payment", "suspension for non-payment"] },
   { term := "Price Adjustment / Escalation", category := "Pricing",
     risk_seller := 4, risk_buyer := 7,
     keywords := ["price increase", "escalation", "CPI", "indexation", "adjustment"] },
   { term := "Taxes, Tariffs, & Duties", category := "Financial",
     risk_seller := 5, risk_buyer := 6,
     keywords := ["tax", "VAT", "sales tax", "duties", "withholding tax"] },
   { term := "Currency & Exchange Rate", category := "Financial",
     risk_seller := 3, risk_buyer := 6,
     keywords := ["currency", "exchange rate", "FX", "convert", "USD", "EUR"] },
   { term := "Set-off & Withholding", category := "Financial",
     risk_seller := 7, risk_buyer := 4,
     keywords := ["set-off", "withhold", "offset", "deduction"] },
   { term := "Refunds & Credits", category := "Financial",
     risk_seller := 6, risk_buyer := 7,
     keywords := ["refund", "credit", "prorate", "reimbursement"] },
   { term := "Advance Payments & Security", category := "Financial",
     risk_seller := 4, risk_buyer := 7,
     keywords := ["deposit", "advance", "prepayment", "letter of credit", "security"] },
   { term := "Indemnities", category := "Legal",
     risk_seller := 5, risk_buyer := 9,
     keywords := ["indemnify", "hold harmless", "defense", "third party claim"] },
   { term := "Limitation of Liability", category := "Legal",
     risk_seller := 8, risk_buyer := 6,
     keywords := ["limitation of liability", "cap", "excluded damages", "consequential"] },
   { term := "Dispute Resolution", category := "Legal",
     risk_seller := 5, risk_buyer := 6,
     keywords := ["arbitration", "mediation", "jurisdiction", "governing law", "AAA"] },
   { term := "Termination for Cause", category := "Legal",
     risk_seller := 6, risk_buyer := 7,
     keywords := ["terminate for cause", "material breach", "cure period"] },
   { term := "Termination for Convenience", category := "Legal",
     risk_seller := 7, risk_buyer := 5,
     keywords := ["termination for convenience", "notice period", "termination fee"] },
   { term := "Force Majeure & Change in Law", category := "Legal",
     risk_seller := 6, risk_buyer := 6,
     keywords := ["force majeure", "acts of god", "change in law", "epidemic", "pandemic"] },
   { term := "Assignment & Subcontracting", category := "Legal",
     risk_seller := 5, risk_buyer := 6,
     keywords := ["assign", "assignment", "subcontract", "novation", "delegate"] },
   { term := "Compliance with Laws & Ethics", category := "Compliance",
     risk_seller := 8, risk_buyer := 7,
     keywords := ["comply with law", "anti-corruption", "anti-bribery", "law", "regulation"] },
   { term := "Audit & Inspection Rights", category := "Compliance",
     risk_seller := 9, risk_buyer := 6,
     keywords := ["audit", "inspect", "records", "examination", "access to books"] },
   { term := "Data Protection & Privacy", category := "Compliance",
     risk_seller := 9, risk_buyer := 8,
     keywords := ["privacy", "GDPR", "HIPAA", "personal data", "PII", "data processing"] },
   { term := "Information Security & Cybersecurity", category := "Compliance",
     risk_seller := 9, risk_buyer := 8,
     keywords := ["security", "SOC2", "encryption", "breach", "incident response"] },
   { term := "Anti-Bribery & Corruption", category := "Compliance",
     risk_seller := 7, risk_buyer := 6,
     keywords := ["anti-bribery", "FCPA", "corruption", "bribery", "kickback"] },
   { term := "Scope of Work / Deliverables", category := "Operational",
     risk_seller := 6, risk_buyer := 9,
     keywords := ["scope", "statement of work", "deliverable", "SOW", "milestones"] },
   { term := "Service Levels (SLA)", category := "Operational",
     risk_seller := 6, risk_buyer := 9,
     keywords := ["SLA", "uptime", "availability", "99.9%", "response time"] },
   { term := "Warranties (Performance & Quality)", category := "Operational",
     risk_seller := 6, risk_buyer := 8,
     keywords := ["warranty", "merchantability", "fitness for purpose", "remedy"] },
   { term := "Change Control / Variation Orders", category := "Operational",
     risk_seller := 6, risk_buyer := 7,
     keywords := ["change order", "variation", "change request", "scope change"] },
   { term := "Intellectual Property Ownership", category := "Legal",
     risk_seller := 4, risk_buyer := 9,
     keywords := ["ownership", "intellectual property", "IP", "assign", "ownership of work"] },
   { term := "License Grant & Restrictions", category := "Legal",
     risk_seller := 6, risk_buyer := 8,
     keywords := ["license", "sublicense", "sublicensing", "non-transferable", "non-exclusive"] },
   { term := "Confidentiality & Non-Disclosure", category := "Legal",
     risk_seller := 7, risk_buyer := 7,
     keywords := ["confidential", "NDA", "non-disclosure", "trade secret"] },
   { term := "Exclusivity / Non-Compete", category := "Competitive",
     risk_seller := 3, risk_buyer := 6,
     keywords := ["exclusive", "exclusivity", "non-compete", "territory"] },
   { term := "Most-Favored-Nation (MFN) / Price Parity", category := "Pricing",
     risk_seller := 3, risk_buyer := 5,
     keywords := ["MFN", "most favored nation", "price parity", "best price"] },
   { term := "Change of Control / Ownership", category := "Strategic",
     risk_seller := 5, risk_buyer := 6,
     keywords := ["change of control", "merger", "acquisition", "assignment"] }]

/-- Identified term as recorded by analyze_contract_text: the
perspective-selected risk score is risk_buyer for "buyer", else
risk_seller (line 343). -/
structure TermAnalysis where
  term : String
  category : String
  risk_score : ℕ
deriving DecidableEq

/-- Terms of the lexicon with at least one keyword match in the text, in
lexicon order, with the perspective-selected score (lines 332-352). -/
def identifiedTermsOf (text : String) (perspective : String) : List TermAnalysis :=
  (TERMS.filter (fun t => t.keywords.any (fun kw => keywordMatchesIn text kw))).map
    (fun t =>
      { term := t.term
        category := t.category
        risk_score := if perspective = "buyer" then t.risk_buyer else t.risk_seller })

/-- Output of analyze_contract_text, restricted to the fields the claims
read. -/
structure ContractAnalysis where
  overall_risk_score : ℚ
  terms_identified : ℕ
  identified : List TermAnalysis
  coverage : ℚ

/-- ContractRiskMatrix.analyze_contract_text (lines 316-397): the overall
risk score is (mean of identified 1-10 scores / 10) * 100 rounded to two
decimals, or the fixed fallback 50 when no term matched. -/
def analyze_contract_text (text : String) (perspective : String) : ContractAnalysis :=
  let idts := identifiedTermsOf text perspective
  let overall : ℚ :=
    if idts.length ≠ 0 then
      ((idts.map (fun t => (t.risk_score : ℚ))).sum / (idts.length : ℚ)) / 10 * 100
    else 50
  { overall_risk_score := round2 overall
    terms_identified := idts.length
    identified := idts
    coverage := round2 ((idts.length : ℚ) / (TERMS.length : ℚ) * 100) }

/-- Concrete input: every category score 10 (spec example). -/
def scores_all_10 : Dict :=
  [("financial_score", 10), ("legal_score", 10), ("esg_score", 10),
   ("geopolitical_score", 10), ("operational_score", 10), ("pricing_score", 10),
   ("social_score", 10), ("performance_score", 10)]

/-- Concrete input: equal weights 0.125 (spec example). -/
def weights_equal : Dict :=
  [("financial", 1/8), ("legal", 1/8), ("esg", 1/8), ("geopolitical", 1/8),
   ("operational", 1/8), ("pricing", 1/8), ("social", 1/8), ("performance", 1/8)]

/-- Concrete input: scores [100,0,0,0,0,0,0,0] (spec example). -/
def scores_first_100 : Dict :=
  [("financial_score", 100), ("legal_score", 0), ("esg_score", 0),
   ("geopolitical_score", 0), ("operational_score", 0), ("pricing_score", 0),
   ("social_score", 0), ("performance_score", 0)]

/-- Concrete input: weights [1,0,0,0,0,0,0,0] (spec example). -/
def weights_first_1 : Dict :=
  [("financial", 1), ("legal", 0), ("esg", 0), ("geopolitical", 0),
   ("operational", 0), ("pricing", 0), ("social", 0), ("performance", 0)]

/-- Concrete partial score map used by witnesses. -/
def scores_partial : Dict := [("legal_score", 50)]

/-- Concrete partial weight map used by witnesses. -/
def weights_partial : Dict := [("legal", 1)]

/-- Concrete in-range score map used by witnesses. -/
def scores_in_range : Dict := [("financial_score", 50), ("legal_score", 0)]

/-- Concrete version row builder for witnesses: equal weights, chosen id
and flags. -/
def mkVersion (idn : ℕ) (act : Bool) (app : Bool) : RiskMatrixVersion :=
  { id := idn, version := "v"
    financial_weight := 1/8, legal_weight := 1/8, esg_weight := 1/8
    geopolitical_weight := 1/8, operational_weight := 1/8, pricing_weight := 1/8
    social_weight := 1/8, performance_weight := 1/8
    is_active := act, is_approved := app }

/-- Concrete two-row ledger used by witnesses: version 1 active and
approved, version 2 a draft. -/
def ledger₀ : Ledger := [mkVersion 1 true true, mkVersion 2 false false]

/-- Concrete training results used by witnesses. -/
def training_results₀ : TrainingResults :=
  { model_type := "logistic_regression", n_samples := 100
    feature_importance := weights_equal }

/-- Concrete input: every category score 85 (composite 85 with the default
equal weights). -/
def scores_all_85 : Dict :=
  [("financial_score", 85), ("legal_score", 85), ("esg_score", 85),
   ("geopolitical_score", 85), ("operational_score", 85), ("pricing_score", 85),
   ("social_score", 85), ("performance_score", 85)]

/-- Concrete input: every category score 65 (composite 65 with the default
equal weights). -/
def scores_all_65 : Dict :=
  [("financial_score", 65), ("legal_score", 65), ("esg_score", 65),
   ("geopolitical_score", 65), ("operational_score", 65), ("pricing_score", 65),
   ("social_score", 65), ("performance_score", 65)]

/-- Concrete input: every category score 30 (composite 30 with the default
equal weights). -/
def scores_all_30 : Dict :=
  [("financial_score", 30), ("legal_score", 30), ("esg_score", 30),
   ("geopolitical_score", 30), ("operational_score", 30), ("pricing_score", 30),
   ("social_score", 30), ("performance_score", 30)]

/-- Concrete scoring state with supplier 1 present and a healthy alert
store. -/
def st_ok : ScoringState :=
  { ledger := [], suppliers := [1], assessments := [], alerts := []
    alert_commit_fails := false }

/-- Concrete scoring state in which the alert commit raises. -/
def st_fail : ScoringState :=
  { ledger := [], suppliers := [1], assessments := [], alerts := []
    alert_commit_fails := true }

end Aegis

namespace Aegis

/-- Rounding half to even of an integer is the identity. -/
theorem roundHalfEven_intCast (n : ℤ) : roundHalfEven (n : ℚ) = n := by
  simp [roundHalfEven]

/-- Rounding an integer-valued rational to two decimals is the identity. -/
theorem round2_intCast (n : ℤ) : round2 (n : ℚ) = n := by
  have h : ((n : ℚ)) * 100 = ((n * 100 : ℤ) : ℚ) := by push_cast; ring
  rw [round2, h, roundHalfEven_intCast]
  push_cast
  ring

/-- Unfolding of the scoring fold into the sum over the eight fixed
categories, shared by several claim proofs. -/
theorem composite_expand (cs w : Dict) :
    compute_composite_score cs w = round2 (
      dget cs "financial_score" 0 * dget w "financial" 0 +
      dget cs "legal_score" 0 * dget w "legal" 0 +
      dget cs "esg_score" 0 * dget w "esg" 0 +
      dget cs "geopolitical_score" 0 * dget w "geopolitical" 0 +
      dget cs "operational_score" 0 * dget w "operational" 0 +
      dget cs "pricing_score" 0 * dget w "pricing" 0 +
      dget cs "social_score" 0 * dget w "social" 0 +
      dget cs "performance_score" 0 * dget w "performance" 0) := by
  simp [compute_composite_score, RISK_CATEGORIES]

/-- Same unfolding for the spec-side clamped variant. -/
theorem composite_clamped_expand (cs w : Dict) :
    compute_composite_score_clamped cs w = round2 (
      clamp0100 (dget cs "financial_score" 0) * dget w "financial" 0 +
      clamp0100 (dget cs "legal_score" 0) * dget w "legal" 0 +
      clamp0100 (dget cs "esg_score" 0) * dget w "esg" 0 +
      clamp0100 (dget cs "geopolitical_score" 0) * dget w "geopolitical" 0 +
      clamp0100 (dget cs "operational_score" 0) * dget w "operational" 0 +
      clamp0100 (dget cs "pricing_score" 0) * dget w "pricing" 0 +
      clamp0100 (dget cs "social_score" 0) * dget w "social" 0 +
      clamp0100 (dget cs "performance_score" 0) * dget w "performance" 0) := by
  simp [compute_composite_score_clamped, RISK_CATEGORIES]

/-- Looking up an absent key yields the default. -/
theorem dget_of_hasKey_false (d : Dict) (k : String) (dflt : ℚ)
    (h : hasKey d k = false) : dget d k dflt = dflt := by
  induction d with
  | nil => rfl
  | cons p rest ih =>
    obtain ⟨k₁, v⟩ := p
    simp only [hasKey, Bool.or_eq_false_iff, decide_eq_false_iff_not] at h
    simp only [dget, if_neg h.1]
    exact ih h.2

/-- Prepending an absent key bound to 0 never changes a lookup whose
default is 0. -/
theorem dget_cons_zero (d : Dict) (k : String) (h : hasKey d k = false)
    (k₁ : String) : dget ((k, 0) :: d) k₁ 0 = dget d k₁ 0 := by
  by_cases hk : k = k₁
  · subst hk
    simp [dget, dget_of_hasKey_false d k 0 h]
  · simp only [dget, if_neg hk]

/-- Every value in a dict satisfying a predicate (together with the
default) bounds the lookup result. -/
theorem dget_prop (P : ℚ → Prop) (d : Dict) (k : String) (dflt : ℚ)
    (hd : ∀ p ∈ d, P p.2) (h0 : P dflt) : P (dget d k dflt) := by
  induction d with
  | nil => exact h0
  | cons p rest ih =>
    obtain ⟨k₁, v⟩ := p
    by_cases hk : k₁ = k
    · simpa [dget, hk] using hd (k₁, v) (by simp)
    · simp only [dget, if_neg hk]
      exact ih (fun q hq => hd q (by simp [hq]))

/-- C2: compute_composite_score returns the sum over the eight fixed
categories of weight times score, rounded to 2 decimals; all-10 scores
with equal 0.125 weights give 10.00, and scores [100,0,...,0] with weights
[1,0,...,0] give 100.00. -/
theorem composite_is_rounded_weighted_sum :
    (∀ cs w : Dict, compute_composite_score cs w = round2 (
      dget cs "financial_score" 0 * dget w "financial" 0 +
      dget cs "legal_score" 0 * dget w "legal" 0 +
      dget cs "esg_score" 0 * dget w "esg" 0 +
      dget cs "geopolitical_score" 0 * dget w "geopolitical" 0 +
      dget cs "operational_score" 0 * dget w "operational" 0 +
      dget cs "pricing_score" 0 * dget w "pricing" 0 +
      dget cs "social_score" 0 * dget w "social" 0 +
      dget cs "performance_score" 0 * dget w "performance" 0)) ∧
    compute_composite_score scores_all_10 weights_equal = 10 ∧
    compute_composite_score scores_first_100 weights_first_1 = 100 := by
  refine ⟨composite_expand, ?_, ?_⟩
  · have h : compute_composite_score scores_all_10 weights_equal = round2 ((10:ℤ) : ℚ) := by
      simp +decide [compute_composite_score, RISK_CATEGORIES, scores_all_10, weights_equal, dget]
      norm_num
    rw [h, round2_intCast]
    norm_num
  · have h : compute_composite_score scores_first_100 weights_first_1 = round2 ((100:ℤ) : ℚ) := by
      simp +decide [compute_composite_score, RISK_CATEGORIES, scores_first_100, weights_first_1, dget]
    rw [h, round2_intCast]
    norm_num

/-- C10: a category whose score key is absent contributes as if its score
were 0.0, and a category absent from the weight map contributes as if its
weight were 0.0; the (total) function returns a composite for arbitrary
partial inputs. -/
theorem missing_keys_contribute_zero (cs w : Dict) (c : String) :
    (hasKey cs (c ++ "_score") = false →
      compute_composite_score cs w =
        compute_composite_score ((c ++ "_score", 0) :: cs) w) ∧
    (hasKey w c = false →
      compute_composite_score cs w =
        compute_composite_score cs ((c, 0) :: w)) := by
  constructor
  · intro h
    rw [composite_expand, composite_expand]
    simp only [dget_cons_zero cs (c ++ "_score") h]
  · intro h
    rw [composite_expand, composite_expand]
    simp only [dget_cons_zero w c h]

/-- Witness for C10 at a concrete partial input: "financial_score" is
absent from the score map and "financial" from the weight map, and adding
either as 0 leaves the composite unchanged. -/
theorem missing_keys_contribute_zero_witness :
    (hasKey scores_partial ("financial" ++ "_score") = false ∧
      compute_composite_score scores_partial weights_partial =
        compute_composite_score (("financial" ++ "_score", 0) :: scores_partial) weights_partial) ∧
    (hasKey weights_partial "financial" = false ∧
      compute_composite_score scores_partial weights_partial =
        compute_composite_score scores_partial (("financial", 0) :: weights_partial)) :=
  ⟨⟨by decide, (missing_keys_contribute_zero scores_partial weights_partial "financial").1 (by decide)⟩,
   ⟨by decide, (missing_keys_contribute_zero scores_partial weights_partial "financial").2 (by decide)⟩⟩

/-- C5 counterexample: the source does not clamp scores. At the score map
with financial_score = 200 and full weight on financial, the composite is
200, while the clamped computation the claim describes yields 100: an
out-of-range input produces a composite outside what clamped inputs can
yield. -/
theorem scores_not_clamped_cex :
    compute_composite_score [("financial_score", 200)] [("financial", 1)] = 200 ∧
    compute_composite_score_clamped [("financial_score", 200)] [("financial", 1)] = 100 ∧
    ¬ ((200 : ℚ) ≤ 100) := by
  refine ⟨?_, ?_, by norm_num⟩
  · have h : compute_composite_score [("financial_score", 200)] [("financial", 1)] =
        round2 ((200:ℤ) : ℚ) := by
      simp +decide [compute_composite_score, RISK_CATEGORIES, dget]
    rw [h, round2_intCast]
    norm_num
  · have h : compute_composite_score_clamped [("financial_score", 200)] [("financial", 1)] =
        round2 ((100:ℤ) : ℚ) := by
      simp +decide [compute_composite_score_clamped, RISK_CATEGORIES, dget, clamp0100]
      norm_num
    rw [h, round2_intCast]
    norm_num

/-- C5 (amended): the source uses category scores as-is, without clamping;
for inputs whose scores all lie in [0,100] the composite coincides with
the clamped computation, but out-of-range inputs flow through unclamped
(see the counterexample). -/
theorem composite_clamp_noop_in_range (cs w : Dict)
    (h : ∀ p ∈ cs, 0 ≤ p.2 ∧ p.2 ≤ 100) :
    compute_composite_score cs w = compute_composite_score_clamped cs w := by
  have hd : ∀ k : String, clamp0100 (dget cs k 0) = dget cs k 0 := by
    intro k
    have hp : 0 ≤ dget cs k 0 ∧ dget cs k 0 ≤ 100 :=
      dget_prop (fun x => 0 ≤ x ∧ x ≤ 100) cs k 0 h (by norm_num)
    simp [clamp0100, min_eq_right hp.2, max_eq_right hp.1]
  rw [composite_expand, composite_clamped_expand]
  simp only [hd]

/-- Witness for the amended C5 at an in-range input. -/
theorem composite_clamp_noop_in_range_witness :
    (∀ p ∈ scores_in_range, 0 ≤ p.2 ∧ p.2 ≤ 100) ∧
    compute_composite_score scores_in_range weights_equal =
      compute_composite_score_clamped scores_in_range weights_equal := by
  have h : ∀ p ∈ scores_in_range, 0 ≤ p.2 ∧ p.2 ≤ 100 := by
    intro p hp
    simp only [scores_in_range, List.mem_cons, List.mem_singleton] at hp
    rcases hp with h1 | h1 | h1 <;> first | (subst h1; constructor <;> norm_num) | cases h1
  exact ⟨h, composite_clamp_noop_in_range scores_in_range weights_equal h⟩

/-- Active-row count of a cons cell. -/
theorem activeCount_cons (v : RiskMatrixVersion) (l : Ledger) :
    activeCount (v :: l) = (if v.is_active then 1 else 0) + activeCount l := by
  by_cases h : v.is_active <;> (simp [activeCount, List.filter_cons, h]; try omega)

/-- Active-row count distributes over append. -/
theorem activeCount_append (l₁ l₂ : Ledger) :
    activeCount (l₁ ++ l₂) = activeCount l₁ + activeCount l₂ := by
  simp [activeCount, List.filter_append]

/-- After the bulk deactivation no row is active. -/
theorem activeCount_deactivate_all (l : Ledger) :
    activeCount (deactivate_all l) = 0 := by
  induction l with
  | nil => rfl
  | cons v rest ih =>
    simpa [deactivate_all, activeCount_cons] using ih

/-- An update not touching is_active preserves the active-row count. -/
theorem activeCount_updateFirst (l : Ledger) (vid : ℕ)
    (f : RiskMatrixVersion → RiskMatrixVersion)
    (hf : ∀ v, (f v).is_active = v.is_active) :
    activeCount (updateFirst l vid f) = activeCount l := by
  induction l with
  | nil => rfl
  | cons v rest ih =>
    rw [updateFirst]
    by_cases h : v.id = vid
    · simp [h, activeCount_cons, hf]
    · simp [h, activeCount_cons, ih]

/-- Updating a single row raises the active-row count by at most one. -/
theorem activeCount_updateFirst_le (l : Ledger) (vid : ℕ)
    (f : RiskMatrixVersion → RiskMatrixVersion) :
    activeCount (updateFirst l vid f) ≤ activeCount l + 1 := by
  induction l with
  | nil => simp [updateFirst]
  | cons v rest ih =>
    rw [updateFirst]
    by_cases h : v.id = vid
    · rw [if_pos h, activeCount_cons, activeCount_cons]
      split_ifs <;> omega
    · rw [if_neg h, activeCount_cons, activeCount_cons]
      omega

/-- C1: starting from a table with at most one active version, each of
create_risk_matrix_version, approve_version, activate_version and
rollback_to_version leaves the table with at most one active version
(activation even unconditionally leaves at most one). -/
theorem at_most_one_active_preserved (l : Ledger) (h : activeCount l ≤ 1) :
    (∀ tr auto nid, activeCount (create_risk_matrix_version tr auto nid l).2 ≤ 1) ∧
    (∀ vid, activeCount (approve_version vid l).2 ≤ 1) ∧
    (∀ vid, activeCount (activate_version vid l).2 ≤ 1) ∧
    (∀ vid, activeCount (rollback_to_version vid l).2 ≤ 1) := by
  have hact : ∀ vid, activeCount (activate_version vid l).2 ≤ 1 := by
    intro vid
    rw [activate_version]
    rcases hf : findVersion l vid with _ | v
    · simpa using h
    · by_cases ha : v.is_approved = false
      · simpa [ha] using h
      · simp only [ha, if_false]
        have h1 := activeCount_updateFirst_le (deactivate_all l) vid
          (fun w => { w with is_active := true })
        rw [activeCount_deactivate_all] at h1
        simpa using h1
  refine ⟨?_, ?_, hact, fun vid => hact vid⟩
  · intro tr auto nid
    rw [create_risk_matrix_version]
    simpa [activeCount_append, activeCount_cons, activeCount] using h
  · intro vid
    rw [approve_version]
    rcases hf : findVersion l vid with _ | v
    · simpa using h
    · by_cases ha : v.is_approved
      · simpa [ha] using h
      · simp only [ha, if_false]
        have h1 := activeCount_updateFirst l vid
          (fun w => { w with is_approved := true }) (fun w => rfl)
        simpa [h1] using h

/-- Witness for C1 at the concrete two-row ledger. -/
theorem at_most_one_active_preserved_witness :
    activeCount ledger₀ ≤ 1 ∧
    activeCount (create_risk_matrix_version training_results₀ false 3 ledger₀).2 ≤ 1 ∧
    activeCount (approve_version 2 ledger₀).2 ≤ 1 ∧
    activeCount (activate_version 1 ledger₀).2 ≤ 1 ∧
    activeCount (rollback_to_version 1 ledger₀).2 ≤ 1 :=
  ⟨by decide,
   (at_most_one_active_preserved ledger₀ (by decide)).1 training_results₀ false 3,
   (at_most_one_active_preserved ledger₀ (by decide)).2.1 2,
   (at_most_one_active_preserved ledger₀ (by decide)).2.2.1 1,
   (at_most_one_active_preserved ledger₀ (by decide)).2.2.2 1⟩

/-- A found version is a member with the searched id. -/
theorem findVersion_eq_some (l : Ledger) (vid : ℕ) (v : RiskMatrixVersion)
    (h : findVersion l vid = some v) : v ∈ l ∧ v.id = vid := by
  refine ⟨List.mem_of_find?_eq_some h, ?_⟩
  have := List.find?_some h
  simpa using this

/-- Deactivation preserves the id column. -/
theorem deactivate_all_ids (l : Ledger) :
    (deactivate_all l).map (fun u => u.id) = l.map (fun u => u.id) := by
  rw [deactivate_all, List.map_map]
  rfl

/-- Every row of the bulk-deactivated table is inactive. -/
theorem mem_deactivate_all_inactive (l : Ledger) (u : RiskMatrixVersion)
    (hu : u ∈ deactivate_all l) : u.is_active = false := by
  rw [deactivate_all, List.mem_map] at hu
  obtain ⟨w, _, hw⟩ := hu
  rw [← hw]

/-- Activating the first row carrying the searched id in an all-inactive
table with unique ids makes a row active exactly when it carries that
id. -/
theorem updateFirst_activate_mem (l : Ledger) (vid : ℕ)
    (hl : ∀ u ∈ l, u.is_active = false)
    (hnd : (l.map (fun u => u.id)).Nodup) :
    ∀ u ∈ updateFirst l vid (fun w => { w with is_active := true }),
      u.is_active = (u.id == vid) := by
  induction l with
  | nil => intro u hu; cases hu
  | cons v rest ih =>
    have hnd₁ : (rest.map (fun u => u.id)).Nodup := (List.nodup_cons.mp hnd).2
    have hvid : v.id ∉ rest.map (fun u => u.id) := (List.nodup_cons.mp hnd).1
    rw [updateFirst]
    by_cases h : v.id = vid
    · rw [if_pos h]
      intro u hu
      rcases List.mem_cons.mp hu with h1 | h1
      · subst h1
        simp [h]
      · have h2 : u.id ∈ rest.map (fun w => w.id) :=
          List.mem_map_of_mem (fun w => w.id) h1
        have h4 : u.id ≠ vid := by
          intro he
          exact hvid (by rw [h, ← he]; exact h2)
        rw [hl u (List.mem_cons_of_mem v h1)]
        simp [h4]
    · rw [if_neg h]
      intro u hu
      rcases List.mem_cons.mp hu with h1 | h1
      · subst h1
        rw [hl u (List.mem_cons_self u rest)]
        simp [h]
      · exact ih (fun w hw => hl w (List.mem_cons_of_mem v hw)) hnd₁ u h1

/-- Combination of the two previous facts for the activation update. -/
theorem updateFirst_deactivate_mem (l : Ledger) (vid : ℕ)
    (hnd : (l.map (fun u => u.id)).Nodup) :
    ∀ u ∈ updateFirst (deactivate_all l) vid (fun w => { w with is_active := true }),
      u.is_active = (u.id == vid) :=
  updateFirst_activate_mem (deactivate_all l) vid
    (mem_deactivate_all_inactive l)
    (by rw [deactivate_all_ids]; exact hnd)

/-- C4: activating a version that is not approved fails with
NotApprovedError and returns the table unchanged (no flag is modified);
activation of an approved version succeeds and makes exactly the rows
carrying that id active and all others inactive. -/
theorem activate_requires_approval (l : Ledger) (vid : ℕ) (v : RiskMatrixVersion)
    (hfind : findVersion l vid = some v)
    (hnd : (l.map (fun u => u.id)).Nodup) :
    (v.is_approved = false →
      activate_version vid l = (.error .NotApprovedError, l)) ∧
    (v.is_approved = true →
      (activate_version vid l).1 = .ok { v with is_active := true } ∧
      ∀ u ∈ (activate_version vid l).2, u.is_active = (u.id == vid)) := by
  constructor
  · intro ha
    rw [activate_version, hfind]
    simp [ha]
  · intro ha
    rw [activate_version, hfind]
    simp only [ha, if_false, Bool.true_eq_false]
    exact ⟨by simp, updateFirst_deactivate_mem l vid hnd⟩

/-- Witness for C4 at the concrete two-row ledger: version 2 is a draft,
so activating it fails and the ledger is unchanged; version 1 is approved,
so activating it succeeds and leaves exactly row 1 active. -/
theorem activate_requires_approval_witness :
    (findVersion ledger₀ 2 = some (mkVersion 2 false false) ∧
      activate_version 2 ledger₀ = (.error .NotApprovedError, ledger₀)) ∧
    (findVersion ledger₀ 1 = some (mkVersion 1 true true) ∧
      (activate_version 1 ledger₀).1 = .ok { mkVersion 1 true true with is_active := true } ∧
      ∀ u ∈ (activate_version 1 ledger₀).2, u.is_active = (u.id == 1)) :=
  ⟨⟨rfl,
    (activate_requires_approval ledger₀ 2 (mkVersion 2 false false)
      rfl (by decide)).1 rfl⟩,
   ⟨rfl,
    (activate_requires_approval ledger₀ 1 (mkVersion 1 true true)
      rfl (by decide)).2 rfl⟩⟩

/-- C7: a training request whose prepared dataset has fewer rows than the
configured minimum raises InsufficientDataError, and the composed
train-then-version endpoint creates no version: the table is unchanged. -/
theorem insufficient_data_no_version (mt : String) (raw : List ℚ) (n min_s : ℕ)
    (thr : ℚ) (auto : Bool) (nid : ℕ) (l : Ledger) (h : n < min_s) :
    train_model mt raw n min_s thr = .error .InsufficientDataError ∧
    (train_and_create_version mt raw n min_s thr auto nid l).1 =
      .error .InsufficientDataError ∧
    (train_and_create_version mt raw n min_s thr auto nid l).2 = l := by
  have ht : train_model mt raw n min_s thr = .error .InsufficientDataError := by
    rw [train_model, if_pos h]
  refine ⟨ht, ?_, ?_⟩ <;> simp [train_and_create_version, ht]

/-- Witness for C7: 10 rows with minimum 50. -/
theorem insufficient_data_no_version_witness :
    10 < 50 ∧
    train_model "logistic_regression" [1, 1, 1, 1, 1, 1, 1, 1] 10 50 (1/100) =
      .error .InsufficientDataError ∧
    (train_and_create_version "logistic_regression" [1, 1, 1, 1, 1, 1, 1, 1]
        10 50 (1/100) false 1 ledger₀).2 = ledger₀ :=
  ⟨by decide,
   (insufficient_data_no_version "logistic_regression" [1, 1, 1, 1, 1, 1, 1, 1]
      10 50 (1/100) false 1 ledger₀ (by decide)).1,
   (insufficient_data_no_version "logistic_regression" [1, 1, 1, 1, 1, 1, 1, 1]
      10 50 (1/100) false 1 ledger₀ (by decide)).2.2⟩

/-- Keys not present give hasKey false. -/
theorem hasKey_false_of_not_mem (d : Dict) (k : String) (h : k ∉ keysOf d) :
    hasKey d k = false := by
  induction d with
  | nil => rfl
  | cons p rest ih =>
    obtain ⟨k₁, v⟩ := p
    simp only [keysOf, List.map_cons, List.mem_cons] at h
    push_neg at h
    simp only [hasKey, Bool.or_eq_false_iff, decide_eq_false_iff_not]
    exact ⟨fun he => h.1 he.symm, ih h.2⟩

/-- Present keys give hasKey true. -/
theorem hasKey_true_of_mem (d : Dict) (k : String) (h : k ∈ keysOf d) :
    hasKey d k = true := by
  induction d with
  | nil => cases h
  | cons p rest ih =>
    obtain ⟨k₁, v⟩ := p
    simp only [keysOf, List.map_cons, List.mem_cons] at h
    rcases h with h | h
    · simp [hasKey, h]
    · simp [hasKey, ih h]

/-- Contrapositive of hasKey_true_of_mem. -/
theorem not_mem_of_hasKey_false (d : Dict) (k : String) (h : hasKey d k = false) :
    k ∉ keysOf d := by
  intro hm
  rw [hasKey_true_of_mem d k hm] at h
  cases h

/-- Sum of a pointwise addition of maps. -/
theorem sum_map_add (l : List String) (f g : String → ℚ) :
    (l.map (fun c => f c + g c)).sum = (l.map f).sum + (l.map g).sum := by
  induction l with
  | nil => simp
  | cons c cs ih => simp [ih]; ring

/-- Sum of single-key indicators over a list avoiding the key. -/
theorem sum_ite_key_zero (cats : List String) (k : String) (v : ℚ)
    (h : k ∉ cats) : (cats.map (fun c => if k = c then v else 0)).sum = 0 := by
  induction cats with
  | nil => rfl
  | cons c cs ih =>
    simp only [List.mem_cons] at h
    push_neg at h
    simp [List.map_cons, if_neg h.1, ih h.2]

/-- Sum of single-key indicators over a duplicate-free list containing the
key. -/
theorem sum_ite_key (cats : List String) (k : String) (v : ℚ)
    (hk : k ∈ cats) (hnd : cats.Nodup) :
    (cats.map (fun c => if k = c then v else 0)).sum = v := by
  induction cats with
  | nil => cases hk
  | cons c cs ih =>
    rcases List.mem_cons.mp hk with h | h
    · subst h
      have hnot : k ∉ cs := (List.nodup_cons.mp hnd).1
      simp [List.map_cons, sum_ite_key_zero cs k v hnot]
    · have hne : k ≠ c := by
        intro he
        subst he
        exact (List.nodup_cons.mp hnd).1 h
      simp [List.map_cons, if_neg hne, ih h (List.nodup_cons.mp hnd).2]

/-- Summing the lookups over a duplicate-free category list covering all
keys of a duplicate-free dict gives the sum of the dict values. -/
theorem sum_dget_eq_sum_values (d : Dict) (cats : List String)
    (hnd : cats.Nodup) (hdk : (keysOf d).Nodup)
    (hsub : ∀ k ∈ keysOf d, k ∈ cats) :
    (cats.map (fun c => dget d c 0)).sum = (valuesOf d).sum := by
  induction d with
  | nil => simp [dget, valuesOf]
  | cons p rest ih =>
    obtain ⟨k, v⟩ := p
    have hk : k ∈ cats := hsub k (by simp [keysOf])
    have hdk₁ : (k :: keysOf rest).Nodup := hdk
    have hknr : k ∉ keysOf rest := (List.nodup_cons.mp hdk₁).1
    have hrest : (keysOf rest).Nodup := (List.nodup_cons.mp hdk₁).2
    have hsubr : ∀ k₁ ∈ keysOf rest, k₁ ∈ cats := by
      intro k₁ h₁
      exact hsub k₁ (by simp [keysOf] at h₁ ⊢; exact Or.inr h₁)
    have hpoint : ∀ c ∈ cats,
        dget ((k, v) :: rest) c 0 = (if k = c then v else 0) + dget rest c 0 := by
      intro c _
      by_cases hkc : k = c
      · subst hkc
        rw [dget_of_hasKey_false rest k 0 (hasKey_false_of_not_mem rest k hknr)]
        simp [dget]
      · simp [dget, hkc]
    rw [List.map_congr_left hpoint, sum_map_add, sum_ite_key cats k v hk hnd,
        ih hrest hsubr]
    simp [valuesOf]

/-- Sum after dividing every value by a constant. -/
theorem sum_map_div (l : List (String × ℚ)) (t : ℚ) :
    (l.map (fun p => p.2 / t)).sum = (l.map (fun p => p.2)).sum / t := by
  induction l with
  | nil => simp
  | cons p ps ih => simp [ih, add_div]

/-- A nonempty list of entries all at least a positive threshold has a
positive sum. -/
theorem sum_pos_of_forall_le (l : List ℚ) (thr : ℚ) (hthr : 0 < thr)
    (hl : ∀ x ∈ l, thr ≤ x) (hne : l ≠ []) : 0 < l.sum := by
  cases l with
  | nil => cases hne rfl
  | cons a as =>
    have h1 : 0 ≤ as.sum :=
      List.sum_nonneg (fun x hx => le_trans hthr.le (hl x (List.mem_cons_of_mem a hx)))
    have h2 : thr ≤ a := hl a (List.mem_cons_self a as)
    rw [List.sum_cons]
    linarith

/-- Structural facts about the filtered, renormalized weight dict: values
are non-negative, keys are duplicate-free and drawn from the eight
categories, and when at least one category survives the filter the values
sum to exactly 1. -/
theorem normalize_importances_spec (raw : List ℚ) (thr : ℚ)
    (hlen : raw.length = 8) (hthr : 0 < thr) :
    (∀ p ∈ normalize_importances raw thr, 0 ≤ p.2) ∧
    (keysOf (normalize_importances raw thr)).Nodup ∧
    (∀ k ∈ keysOf (normalize_importances raw thr), k ∈ RISK_CATEGORIES) ∧
    (surviving raw thr ≠ [] → (valuesOf (normalize_importances raw thr)).sum = 1) := by
  simp only [normalize_importances]
  set nrm := raw.map (fun x => x / raw.sum) with hnrm
  set idict : Dict := RISK_CATEGORIES.zip nrm with hidict
  set filtered := idict.filter (fun p => decide (thr ≤ p.2)) with hfiltered
  set tf := (filtered.map (fun p => p.2)).sum with htf
  set final := filtered.map (fun p => (p.1, p.2 / tf)) with hfinal
  set zeros := (RISK_CATEGORIES.filter (fun c => ! hasKey final c)).map
    (fun c => (c, (0:ℚ))) with hzeros
  have hmemf : ∀ p ∈ filtered, thr ≤ p.2 := by
    intro p hp
    rw [hfiltered, List.mem_filter] at hp
    exact of_decide_eq_true hp.2
  have htf0 : 0 ≤ tf := by
    rw [htf]
    refine List.sum_nonneg ?_
    intro x hx
    rw [List.mem_map] at hx
    obtain ⟨p, hp, hpx⟩ := hx
    rw [← hpx]
    exact le_trans hthr.le (hmemf p hp)
  have hkeys_final : keysOf final = keysOf filtered := by
    rw [hfinal, keysOf, keysOf, List.map_map]
    rfl
  have hkeys_zeros : keysOf zeros = RISK_CATEGORIES.filter (fun c => ! hasKey final c) := by
    rw [hzeros, keysOf, List.map_map]
    rw [show ((fun p => p.1) ∘ fun c => ((c : String), (0:ℚ))) = id from rfl, List.map_id]
  have hkeys_append : keysOf (final ++ zeros) = keysOf final ++ keysOf zeros := by
    rw [keysOf, keysOf, keysOf, List.map_append]
  have hvals_append : valuesOf (final ++ zeros) = valuesOf final ++ valuesOf zeros := by
    rw [valuesOf, valuesOf, valuesOf, List.map_append]
  have hlen_nrm : RISK_CATEGORIES.length ≤ nrm.length := by
    rw [hnrm, List.length_map, hlen]
    decide
  have hkeys_idict : keysOf idict = RISK_CATEGORIES := by
    rw [hidict, keysOf]
    exact List.map_fst_zip RISK_CATEGORIES nrm hlen_nrm
  have hsub_final : (keysOf final).Sublist RISK_CATEGORIES := by
    rw [hkeys_final, ← hkeys_idict]
    exact List.Sublist.map (fun p => p.1) (List.filter_sublist idict)
  have hnd_cats : RISK_CATEGORIES.Nodup := by decide
  have hnd_final : (keysOf final).Nodup := List.Sublist.nodup hsub_final hnd_cats
  have hnd_zeros : (keysOf zeros).Nodup := by
    rw [hkeys_zeros]
    exact List.Nodup.filter _ hnd_cats
  have hdisj : ∀ k, k ∈ keysOf final → k ∈ keysOf zeros → False := by
    intro k h1 h2
    rw [hkeys_zeros, List.mem_filter] at h2
    have : hasKey final k = false := by
      rcases h2 with ⟨_, h2⟩
      simpa using h2
    exact absurd (hasKey_true_of_mem final k h1) (by simp [this])
  refine ⟨?_, ?_, ?_, ?_⟩
  · intro p hp
    rcases List.mem_append.mp hp with hp | hp
    · rw [hfinal, List.mem_map] at hp
      obtain ⟨q, hq, hqp⟩ := hp
      rw [← hqp]
      exact div_nonneg (le_trans hthr.le (hmemf q hq)) htf0
    · rw [hzeros, List.mem_map] at hp
      obtain ⟨c, _, hcp⟩ := hp
      rw [← hcp]
  · rw [hkeys_append]
    refine List.Nodup.append hnd_final hnd_zeros ?_
    intro k h1 h2
    exact hdisj k h1 h2
  · intro k hk
    rw [hkeys_append, List.mem_append] at hk
    rcases hk with hk | hk
    · exact List.Sublist.mem hk hsub_final
    · rw [hkeys_zeros] at hk
      exact List.mem_of_mem_filter hk
  · intro hne
    have hne₁ : filtered ≠ [] := hne
    have htfpos : 0 < tf := by
      rw [htf]
      refine sum_pos_of_forall_le (filtered.map (fun p => p.2)) thr hthr ?_ ?_
      · intro x hx
        rw [List.mem_map] at hx
        obtain ⟨p, hp, hpx⟩ := hx
        rw [← hpx]
        exact hmemf p hp
      · simp [hne₁]
    have hvals_final : valuesOf final = filtered.map (fun p => p.2 / tf) := by
      rw [hfinal, valuesOf, List.map_map]
      rfl
    have hvals_zeros : (valuesOf zeros).sum = 0 := by
      rw [hzeros, valuesOf, List.map_map]
      rw [show ((fun p => p.2) ∘ fun c => ((c : String), (0:ℚ))) = fun _ => (0:ℚ) from rfl]
      simp
    rw [hvals_append, List.sum_append, hvals_zeros, hvals_final, sum_map_div,
        ← htf, div_self (ne_of_gt htfpos)]
    ring

/-- C3 (amended): every version created by train_model followed by
create_risk_matrix_version stores non-negative weights, and when at least
one category survives the importance filter (always the case under the
default threshold 0.01, since the eight normalized importances sum to 1
and so contain one of at least 1/8) the eight stored weights sum to
exactly 1; when every category falls below the threshold the source
instead stores eight zero weights (see the counterexample). -/
theorem trained_version_weights_normalized (mt : String) (raw : List ℚ)
    (n min_s : ℕ) (thr : ℚ) (auto : Bool) (nid : ℕ) (l : Ledger)
    (hmt : mt ∈ VALID_MODEL_TYPES) (hlen : raw.length = 8) (hthr : 0 < thr)
    (hn : ¬ n < min_s) :
    ∃ tr v l₁,
      train_model mt raw n min_s thr = .ok tr ∧
      create_risk_matrix_version tr auto nid l = (v, l₁) ∧
      l₁ = l ++ [v] ∧
      (0 ≤ v.financial_weight ∧ 0 ≤ v.legal_weight ∧ 0 ≤ v.esg_weight ∧
       0 ≤ v.geopolitical_weight ∧ 0 ≤ v.operational_weight ∧
       0 ≤ v.pricing_weight ∧ 0 ≤ v.social_weight ∧ 0 ≤ v.performance_weight) ∧
      (surviving raw thr ≠ [] → sumWeights v = 1) := by
  obtain ⟨hvals, hnd, hsub, hsum⟩ := normalize_importances_spec raw thr hlen hthr
  have htm : train_model mt raw n min_s thr = .ok
      { model_type := mt, n_samples := n
        feature_importance := normalize_importances raw thr } := by
    rw [train_model, if_neg hn, if_pos hmt]
  have hw : ∀ c, 0 ≤ dget (normalize_importances raw thr) c 0 :=
    fun c => dget_prop (fun x => 0 ≤ x) (normalize_importances raw thr) c 0 hvals le_rfl
  refine ⟨_, _, _, htm, rfl, rfl,
    ⟨hw "financial", hw "legal", hw "esg", hw "geopolitical",
     hw "operational", hw "pricing", hw "social", hw "performance"⟩, ?_⟩
  intro hne
  have h1 : (RISK_CATEGORIES.map (fun c => dget (normalize_importances raw thr) c 0)).sum
      = (valuesOf (normalize_importances raw thr)).sum :=
    sum_dget_eq_sum_values (normalize_importances raw thr) RISK_CATEGORIES
      (by decide) hnd hsub
  have h2 := hsum hne
  have h4 : (RISK_CATEGORIES.map
      (fun c => dget (normalize_importances raw thr) c 0)).sum = 1 := h1.trans h2
  simp only [RISK_CATEGORIES, List.map_cons, List.map_nil, List.sum_cons,
    List.sum_nil] at h4
  dsimp only [sumWeights]
  linarith

/-- Witness for the amended C3 at eight equal raw importances, threshold
1/100, 100 rows with minimum 50. -/
theorem trained_version_weights_normalized_witness :
    "logistic_regression" ∈ VALID_MODEL_TYPES ∧
    ([1, 1, 1, 1, 1, 1, 1, 1] : List ℚ).length = 8 ∧
    (0:ℚ) < 1/100 ∧
    ¬ (100 < 50) ∧
    (∃ tr v l₁,
      train_model "logistic_regression" [1, 1, 1, 1, 1, 1, 1, 1] 100 50 (1/100) = .ok tr ∧
      create_risk_matrix_version tr false 1 [] = (v, l₁) ∧
      l₁ = [] ++ [v] ∧
      (0 ≤ v.financial_weight ∧ 0 ≤ v.legal_weight ∧ 0 ≤ v.esg_weight ∧
       0 ≤ v.geopolitical_weight ∧ 0 ≤ v.operational_weight ∧
       0 ≤ v.pricing_weight ∧ 0 ≤ v.social_weight ∧ 0 ≤ v.performance_weight) ∧
      (surviving [1, 1, 1, 1, 1, 1, 1, 1] (1/100) ≠ [] → sumWeights v = 1)) :=
  ⟨by decide, rfl, by norm_num, by decide,
   trained_version_weights_normalized "logistic_regression" [1, 1, 1, 1, 1, 1, 1, 1]
     100 50 (1/100) false 1 [] (by decide) rfl (by norm_num) (by decide)⟩

/-- C3 counterexample: with the configurable importance threshold set to
1/5 and all eight raw importances equal, every normalized importance is
1/8, below the threshold, so the filter drops every category, the
renormalizing comprehension iterates over an empty dict, and the created
version stores eight zero weights: their sum 0 is not within 1e-6 of 1,
yet the version is created. -/
theorem trained_version_weights_zero_cex :
    ((train_and_create_version "logistic_regression" [1, 1, 1, 1, 1, 1, 1, 1]
        100 50 (1/5) false 1 []).2.map sumWeights) = [0] ∧
    ¬ (|(0:ℚ) - 1| ≤ 1/1000000) := by
  constructor
  · have hnorm : normalize_importances [1, 1, 1, 1, 1, 1, 1, 1] (1/5) =
        RISK_CATEGORIES.map (fun c => (c, (0:ℚ))) := by
      simp only [normalize_importances, RISK_CATEGORIES]
      norm_num [List.filter_cons, List.filter_nil, hasKey]
    have htm : train_model "logistic_regression" [1, 1, 1, 1, 1, 1, 1, 1]
        100 50 (1/5) = .ok
        { model_type := "logistic_regression", n_samples := 100
          feature_importance := normalize_importances [1, 1, 1, 1, 1, 1, 1, 1] (1/5) } := by
      rw [train_model, if_neg (by decide), if_pos (by decide)]
    rw [train_and_create_version, htm]
    simp only [create_risk_matrix_version, hnorm, RISK_CATEGORIES]
    simp +decide [sumWeights, dget]
  · intro h
    rw [abs_le] at h
    linarith [h.1]

/-- Rounding an integer-valued natural to two decimals is the identity. -/
theorem round2_natCast (n : ℕ) : round2 (n : ℚ) = n := by
  exact_mod_cast round2_intCast n

/-- The alert helper never touches the assessments store. -/
theorem create_risk_alert_assessments (st : ScoringState) (a : Assessment)
    (sev : AlertSeverity) :
    (create_risk_alert st a sev).1.assessments = st.assessments := by
  rcases hf : st.suppliers.find? (fun s => s == a.supplier_id) with _ | s
  · simp [create_risk_alert, hf]
  · by_cases hc : st.alert_commit_fails <;> simp [create_risk_alert, hf, hc]

/-- Full case analysis of the alert helper: unknown supplier is a silent
no-op; otherwise a failing commit raises with nothing persisted, and a
healthy commit appends exactly one alert for the found supplier. -/
theorem create_risk_alert_result (st : ScoringState) (a : Assessment)
    (sev : AlertSeverity) :
    (st.suppliers.find? (fun s => s == a.supplier_id) = none →
      create_risk_alert st a sev = (st, .ok ())) ∧
    (∀ s, st.suppliers.find? (fun s₁ => s₁ == a.supplier_id) = some s →
      (st.alert_commit_fails = true →
        create_risk_alert st a sev = (st, .error .CommitFailed)) ∧
      (st.alert_commit_fails = false →
        create_risk_alert st a sev =
          ({ st with alerts := st.alerts ++ [{ supplier_id := s, severity := sev }] },
           .ok ()))) := by
  refine ⟨fun hf => by simp [create_risk_alert, hf], fun s hf => ?_⟩
  constructor <;> intro hc <;> simp [create_risk_alert, hf, hc]

/-- C8: when no recommendation is supplied, the stored (and returned)
assessment carries the fixed policy recommendation: Proceed below 40,
Negotiate in [40,70), Replace at or above 70, computed from the composite
score actually stored. -/
theorem recommendation_from_thresholds (st : ScoringState) (sid : ℕ) (cs : Dict) :
    ∃ a : Assessment,
      (create_risk_assessment sid cs none st).1.assessments = st.assessments ++ [a] ∧
      a.composite_score = compute_composite_score cs (get_active_weights st.ledger) ∧
      a.recommendation =
        (if compute_composite_score cs (get_active_weights st.ledger) < 40 then "Proceed"
         else if compute_composite_score cs (get_active_weights st.ledger) < 70 then "Negotiate"
         else "Replace") := by
  refine ⟨{ supplier_id := sid
            financial_score := dget cs "financial_score" 0
            legal_score := dget cs "legal_score" 0
            esg_score := dget cs "esg_score" 0
            geopolitical_score := dget cs "geopolitical_score" 0
            operational_score := dget cs "operational_score" 0
            pricing_score := dget cs "pricing_score" 0
            social_score := dget cs "social_score" 0
            performance_score := dget cs "performance_score" 0
            composite_score := compute_composite_score cs (get_active_weights st.ledger)
            recommendation :=
              if compute_composite_score cs (get_active_weights st.ledger) < 40 then "Proceed"
              else if compute_composite_score cs (get_active_weights st.ledger) < 70 then "Negotiate"
              else "Replace" }, ?_, rfl, rfl⟩
  simp only [create_risk_assessment]
  by_cases h80 : 80 ≤ compute_composite_score cs (get_active_weights st.ledger)
  · rw [if_pos h80]
    simp [create_risk_alert_assessments]
  · rw [if_neg h80]
    by_cases h60 : 60 ≤ compute_composite_score cs (get_active_weights st.ledger)
    · rw [if_pos h60]
      simp [create_risk_alert_assessments]
    · rw [if_neg h60]

/-- C6 (amended): the stored assessment and the thresholds are as the
claim states, and with a healthy alert store the scoring call returns the
assessment and emits a critical alert exactly at composite at least 80, a
warning exactly in [60,80), and none below 60 (silently skipping the alert
when the supplier is unknown). But alert emission is NOT isolated: when
the alert commit raises with the supplier present and composite at least
60, the exception propagates and the scoring call itself fails (the
assessment is still committed but never returned). -/
theorem alert_emission_thresholds (st : ScoringState) (sid : ℕ) (cs : Dict) :
    ∃ a : Assessment,
      a.composite_score = compute_composite_score cs (get_active_weights st.ledger) ∧
      (create_risk_assessment sid cs none st).1.assessments = st.assessments ++ [a] ∧
      (st.alert_commit_fails = false →
        (create_risk_assessment sid cs none st).2 = .ok a ∧
        (create_risk_assessment sid cs none st).1.alerts = st.alerts ++
          (if st.suppliers.find? (fun s => s == sid) = none then []
           else if 80 ≤ compute_composite_score cs (get_active_weights st.ledger) then
             [{ supplier_id := sid, severity := .CRITICAL }]
           else if 60 ≤ compute_composite_score cs (get_active_weights st.ledger) then
             [{ supplier_id := sid, severity := .WARNING }]
           else [])) ∧
      (st.alert_commit_fails = true →
        st.suppliers.find? (fun s => s == sid) ≠ none →
        60 ≤ compute_composite_score cs (get_active_weights st.ledger) →
        (create_risk_assessment sid cs none st).2 = .error .CommitFailed) := by
  refine ⟨{ supplier_id := sid
            financial_score := dget cs "financial_score" 0
            legal_score := dget cs "legal_score" 0
            esg_score := dget cs "esg_score" 0
            geopolitical_score := dget cs "geopolitical_score" 0
            operational_score := dget cs "operational_score" 0
            pricing_score := dget cs "pricing_score" 0
            social_score := dget cs "social_score" 0
            performance_score := dget cs "performance_score" 0
            composite_score := compute_composite_score cs (get_active_weights st.ledger)
            recommendation :=
              if compute_composite_score cs (get_active_weights st.ledger) < 40 then "Proceed"
              else if compute_composite_score cs (get_active_weights st.ledger) < 70 then "Negotiate"
              else "Replace" }, rfl, ?_, ?_, ?_⟩
  · simp only [create_risk_assessment]
    by_cases h80 : 80 ≤ compute_composite_score cs (get_active_weights st.ledger)
    · rw [if_pos h80]
      simp [create_risk_alert_assessments]
    · rw [if_neg h80]
      by_cases h60 : 60 ≤ compute_composite_score cs (get_active_weights st.ledger)
      · rw [if_pos h60]
        simp [create_risk_alert_assessments]
      · rw [if_neg h60]
  · intro hc
    simp only [create_risk_assessment]
    by_cases h80 : 80 ≤ compute_composite_score cs (get_active_weights st.ledger)
    · rw [if_pos h80]
      rcases hf : st.suppliers.find? (fun s => s == sid) with _ | s
      · simp [create_risk_alert, hf, h80]
      · have hs : s = sid := by simpa using List.find?_some hf
        subst hs
        simp [create_risk_alert, hf, hc, h80]
    · rw [if_neg h80]
      by_cases h60 : 60 ≤ compute_composite_score cs (get_active_weights st.ledger)
      · rw [if_pos h60]
        rcases hf : st.suppliers.find? (fun s => s == sid) with _ | s
        · simp [create_risk_alert, hf, h80, h60]
        · have hs : s = sid := by simpa using List.find?_some hf
          subst hs
          simp [create_risk_alert, hf, hc, h80, h60]
      · rw [if_neg h60]
        rcases hf : st.suppliers.find? (fun s => s == sid) with _ | s
        · simp [hf, h80, h60]
        · simp [hf, h80, h60]
  · intro hc hf hcomp
    simp only [create_risk_assessment]
    rcases hfs : st.suppliers.find? (fun s => s == sid) with _ | s
    · exact absurd hfs hf
    · by_cases h80 : 80 ≤ compute_composite_score cs (get_active_weights st.ledger)
      · rw [if_pos h80]
        simp [create_risk_alert, hfs, hc]
      · rw [if_neg h80, if_pos hcomp]
        simp [create_risk_alert, hfs, hc]

/-- Witness for the amended C6: with a healthy alert store, supplier 1
present and all scores 85 under the default equal weights, the call
succeeds and the alert path is exercised. -/
theorem alert_emission_thresholds_witness :
    st_ok.alert_commit_fails = false ∧
    (∃ a : Assessment,
      a.composite_score = compute_composite_score scores_all_85 (get_active_weights st_ok.ledger) ∧
      (create_risk_assessment 1 scores_all_85 none st_ok).1.assessments =
        st_ok.assessments ++ [a] ∧
      ((create_risk_assessment 1 scores_all_85 none st_ok).2 = .ok a ∧
        (create_risk_assessment 1 scores_all_85 none st_ok).1.alerts = st_ok.alerts ++
          (if st_ok.suppliers.find? (fun s => s == 1) = none then []
           else if 80 ≤ compute_composite_score scores_all_85 (get_active_weights st_ok.ledger) then
             [{ supplier_id := 1, severity := .CRITICAL }]
           else if 60 ≤ compute_composite_score scores_all_85 (get_active_weights st_ok.ledger) then
             [{ supplier_id := 1, severity := .WARNING }]
           else []))) := by
  obtain ⟨a, h1, h2, h3, h4⟩ := alert_emission_thresholds st_ok 1 scores_all_85
  exact ⟨rfl, a, h1, h2, h3 rfl⟩

/-- C6 counterexample: with the supplier present, composite 85 and a
failing alert commit, the scoring call itself fails, contradicting the
claim that an alert emission failure never fails the scoring call. -/
theorem alert_failure_fails_scoring_cex :
    (create_risk_assessment 1 scores_all_85 none st_fail).2 = .error .CommitFailed := by
  have hcomp : compute_composite_score scores_all_85 (get_active_weights ([] : Ledger)) = 85 := by
    have h : compute_composite_score scores_all_85 (get_active_weights ([] : Ledger)) =
        round2 ((85:ℤ) : ℚ) := by
      simp +decide [compute_composite_score, get_active_weights, RISK_CATEGORIES,
        scores_all_85, dget]
      norm_num
    rw [h, round2_intCast]
    norm_num
  simp only [create_risk_assessment, st_fail]
  simp only [hcomp]
  norm_num
  simp +decide [create_risk_alert]

/-- C9: the overall document risk score is the mean of the identified
terms' 1-10 risk scores rescaled to 0-100 (rounded to two decimals), and
exactly 50 when zero lexicon terms match; the text "zzz" matches nothing
and yields exactly 50. -/
theorem overall_risk_is_rescaled_mean :
    (∀ text p : String,
      (analyze_contract_text text p).overall_risk_score =
        (if (identifiedTermsOf text p).length = 0 then 50
         else round2 ((((identifiedTermsOf text p).map
             (fun t => (t.risk_score : ℚ))).sum /
           ((identifiedTermsOf text p).length : ℚ)) * 10))) ∧
    (analyze_contract_text "zzz" "buyer").overall_risk_score = 50 := by
  have hmain : ∀ text p : String,
      (analyze_contract_text text p).overall_risk_score =
        (if (identifiedTermsOf text p).length = 0 then 50
         else round2 ((((identifiedTermsOf text p).map
             (fun t => (t.risk_score : ℚ))).sum /
           ((identifiedTermsOf text p).length : ℚ)) * 10)) := by
    intro text p
    by_cases h : (identifiedTermsOf text p).length = 0
    · simp only [analyze_contract_text, h, ne_eq, not_true_eq_false, if_false, if_pos h]
      exact_mod_cast round2_intCast 50
    · simp only [analyze_contract_text, h, ne_eq, not_false_eq_true, if_true, if_neg h]
      congr 1
      ring
  refine ⟨hmain, ?_⟩
  have hempty : identifiedTermsOf "zzz" "buyer" = [] := by decide
  rw [hmain "zzz" "buyer", hempty]
  simp

end Aegis
